import Mathlib

/-!
Verification of the publish/reconciliation core of the `obsidian-wordpress`
plugin, a shallow embedding of `src/abstract-wp-client.ts` (the current
revision: the one carrying the global publish lock and the category
name/ID conversion helpers).

JavaScript-level conventions used throughout the embedding:
  * a JS `number` that may be `NaN` is modelled as `Option Int`
    (`none` models `NaN`);
  * a field that may be `undefined` is modelled as `Option _`;
  * JS truthiness of a string is "non-empty";
  * external collaborators (transport, vault, modals, `new URL`,
    `decodeURI`) are passed in as explicit environment values, mirroring
    the spec's collaborator interfaces.
-/

namespace ObsidianWp

/-- A JavaScript number that may be `NaN`; `none` models `NaN`. -/
abbrev JsNum := Option Int

/-- Numeric value of a list of decimal digit characters. -/
def digitsVal (ds : List Char) : Int :=
  ds.foldl (fun acc c => acc * 10 + (Int.ofNat (c.toNat - '0'.toNat))) 0

/-- Model of JavaScript `parseInt(s, 10)`: skip leading whitespace, an
optional sign, then read a maximal run of decimal digits; `none` models the
`NaN` result when no digit is found. -/
def jsParseInt (s : String) : JsNum :=
  let cs := s.toList.dropWhile (·.isWhitespace)
  let signed : Int × List Char :=
    match cs with
    | '-' :: r => (-1, r)
    | '+' :: r => (1, r)
    | _ => (1, cs)
  let ds := signed.2.takeWhile (·.isDigit)
  if ds.isEmpty then none
  else some (signed.1 * digitsVal ds)

/-- Model of JavaScript strict equality `===` between two numbers that may
be `NaN`: `NaN === x` is always `false`, even for `x = NaN`. -/
def jsStrictEqNum (a b : JsNum) : Bool :=
  match a, b with
  | some x, some y => x == y
  | _, _ => false

/-- Worker for `jsSetDedup`, carrying the set of already-kept elements. -/
def jsSetDedupAux {α : Type} [DecidableEq α] (seen : List α) : List α → List α
  | [] => []
  | x :: xs =>
    if x ∈ seen then jsSetDedupAux seen xs
    else x :: jsSetDedupAux (x :: seen) xs

/-- Model of spreading a JS `Set` built from a list back into an array:
keeps the first occurrence of each element, in insertion order (`NaN` is
collapsed like any other element, per SameValueZero). -/
def jsSetDedup {α : Type} [DecidableEq α] (l : List α) : List α :=
  jsSetDedupAux [] l

/-- Char-level model of `toLowerCase()` (the string-level library function
does not reduce in the kernel). -/
def jsToLowerCase (s : String) : String :=
  String.mk (s.toList.map Char.toLower)

/-- Char-level `endsWith`. -/
def strEndsWith (s suffix : String) : Bool :=
  suffix.toList.isSuffixOf s.toList

/-- Char-level `startsWith`. -/
def strStartsWith (s p : String) : Bool :=
  p.toList.isPrefixOf s.toList

/-- Char-level model of JavaScript `split` with a one-character separator
(`"".split(sep)` is `[""]`). -/
def charSplit (cs : List Char) (sep : Char) : List (List Char) :=
  match cs with
  | [] => [[]]
  | c :: rest =>
    let r := charSplit rest sep
    if c == sep then [] :: r
    else
      match r with
      | h :: t => (c :: h) :: t
      | [] => [[c]]

/-- First occurrence of `pat` inside `hay`: the text before it and the
text after it. -/
def splitAtSub (hay pat : List Char) : Option (List Char × List Char) :=
  if pat.isPrefixOf hay then some ([], hay.drop pat.length)
  else
    match hay with
    | [] => none
    | c :: rest => (splitAtSub rest pat).map (fun pr => (c :: pr.1, pr.2))

/-- Model of JavaScript `String.prototype.replace` with a plain string
pattern: replaces the first occurrence only.  (`$`-substitution patterns in
the replacement string are not modelled; no replacement string built by the
source contains them unless a remote URL does.) -/
def replaceFirst (s pat r : String) : String :=
  match splitAtSub s.toList pat.toList with
  | none => s
  | some (pre, suf) => String.mk (pre ++ r.toList ++ suf)

/-- A remote taxonomy term.  Modelled from the spec: `Term` of `wp-api.ts`
(not under `src/`) is `{id: string|int, name: string}`; the source always
reads `id` through `parseInt(id, 10)`, so we keep it a string. -/
structure Term where
  id : String
  name : String
deriving DecidableEq, Repr

/-- A runtime element of the untyped `categories` array: the persisted
metadata may hold numeric IDs (legacy) or names (current), so at runtime an
element is a JS number (possibly `NaN`) or a string. -/
inductive CatV
  | num (n : JsNum)
  | str (s : String)
deriving DecidableEq, Repr

/-- `typeof first === 'string'`: representation detection used by every
call site that inspects the untyped categories array. -/
def firstIsString : List CatV → Bool
  | CatV.str _ :: _ => true
  | _ => false

/-- The document's persisted metadata block (`MatterData`), restricted to
the `wp_*` keys the client reads and writes; `none` models an absent key. -/
structure MatterData where
  wp_url : Option String := none
  wp_profile : Option String := none
  wp_ptype : Option String := none
  wp_categories : Option (List CatV) := none
  wp_tags : Option (List String) := none
  wp_title : Option String := none
deriving DecidableEq, Repr

/-- The transient per-attempt request object (`WordPressPostParams`).
`categories` is typed `number[]` in the source but at runtime may carry the
raw untyped array (the source casts); we model the runtime values. -/
structure WordPressPostParams where
  status : String := "draft"
  commentStatus : String := "open"
  postType : String := "post"
  categories : List CatV := []
  tags : List String := []
  title : String := ""
  content : String := ""
  postId : Option String := none
  profileName : Option String := none
deriving DecidableEq, Repr

/-- `result.data.postId` of a publish result: "post id will be returned if
creating, true if editing" (source comment), and absent on some paths. -/
inductive PostIdV
  | num (n : Int)
  | boolTrue
  | undef
deriving DecidableEq, Repr

/-- JS truthiness of a `postId` value (`0` and `undefined` are falsy). -/
def PostIdV.truthy : PostIdV → Bool
  | .num n => n != 0
  | .boolTrue => true
  | .undef => false

/-- String interpolation of a `postId` value into a template literal. -/
def PostIdV.jsString : PostIdV → String
  | .num n => toString n
  | .boolTrue => "true"
  | .undef => "undefined"

/-- The data carried by a successful remote publish/update call. -/
structure PubResultData where
  postId : PostIdV
  postUrl : Option String := none
  categories : List JsNum := []
deriving DecidableEq, Repr

/-- Result of `convertCategoryNamesToIds`: the resolved ID list and the at
most one batched `Notice` message naming every unmatched category. -/
structure ConvertNamesResult where
  ids : List JsNum
  notice : Option String
deriving DecidableEq, Repr

/-- The per-name loop of `convertCategoryNamesToIds`.  The source receives
the untyped array through a `string[]` cast, so a non-string element makes
`name.toLowerCase()` throw a `TypeError` (modelled by `none`), which the
function's `catch` turns into `[1]`.  Returns `(categoryIds,
missingCategories)` in push order. -/
def convertLoop (allCategories : List Term) : List CatV → Option (List JsNum × List String)
  | [] => some ([], [])
  | CatV.num _ :: _ => none
  | CatV.str s :: rest =>
    match convertLoop allCategories rest with
    | none => none
    | some (ids, missing) =>
      match allCategories.find? (fun cat => jsToLowerCase cat.name == jsToLowerCase s) with
      | some cat => some (jsParseInt cat.id :: ids, missing)
      | none => some (some 1 :: ids, s :: missing)

/-- `convertCategoryNamesToIds(categoryNames, auth)`: case-insensitive
match of each name against the full remote category list, default ID `1`
for unmatched names with one batched notice, de-duplication, `[1]` when
empty, and degradation to `[1]` on any error (`getCategories` throwing is
modelled by `categoriesResult = none`). -/
def convertCategoryNamesToIds (categoriesResult : Option (List Term))
    (categoryNames : List CatV) : ConvertNamesResult :=
  match categoriesResult with
  | none => ⟨[some 1], none⟩
  | some allCategories =>
    match convertLoop allCategories categoryNames with
    | none => ⟨[some 1], none⟩
    | some (categoryIds, missingCategories) =>
      let notice : Option String :=
        if missingCategories.length > 0 then
          some ("Categories not found: " ++ String.intercalate ", " missingCategories
            ++ ". Using \"Uncategorized\" instead.")
        else none
      let uniqueIds := jsSetDedup categoryIds
      ⟨if uniqueIds.length > 0 then uniqueIds else [some 1], notice⟩

/-- `parseInt(cat.id, 10) === id` where `id` comes through a `number[]`
cast: a string element never compares equal to a number under `===`. -/
def catIdMatches (cat : Term) : CatV → Bool
  | CatV.num n => jsStrictEqNum (jsParseInt cat.id) n
  | CatV.str _ => false

/-- `convertCategoryIdsToNames(categoryIds, auth)`: IDs with no match are
dropped, an empty result degrades to `["Uncategorized"]`, and so does any
error of `getCategories` (modelled by `categoriesResult = none`). -/
def convertCategoryIdsToNames (categoriesResult : Option (List Term))
    (categoryIds : List CatV) : List String :=
  match categoriesResult with
  | none => ["Uncategorized"]
  | some allCategories =>
    let categoryNames := categoryIds.filterMap
      (fun id => (allCategories.find? (fun cat => catIdMatches cat id)).map Term.name)
    if categoryNames.length > 0 then categoryNames else ["Uncategorized"]

/-- Outcome of the profile-mismatch confirmation modal. -/
inductive ConfirmCode
  | Confirm
  | Cancel
deriving DecidableEq, Repr

/-- The replacement category selection used on a confirmed profile
switch: the profile's non-empty remembered `lastSelectedCategories`, else
the default `[1]`. -/
def profileDefaultCategories (lastSelectedCategories : Option (List CatV)) : List CatV :=
  match lastSelectedCategories with
  | some l => if l.length > 0 then l else [CatV.num (some 1)]
  | none => [CatV.num (some 1)]

/-- `checkExistingProfile(matterData)`: on a profile-name mismatch that the
user confirms, `wp_url` is deleted and `wp_categories` is replaced by the
profile's remembered selection (or `[1]`).  The confirmation modal only
opens in the mismatch case; its outcome is the `confirm` argument. -/
def checkExistingProfile (profileName : String)
    (lastSelectedCategories : Option (List CatV)) (confirm : ConfirmCode)
    (matterData : MatterData) : MatterData :=
  let isProfileNameMismatch :=
    match matterData.wp_profile with
    | some s => s != "" && s != profileName
    | none => false
  if isProfileNameMismatch then
    if confirm != ConfirmCode.Cancel then
      { matterData with
        wp_url := none,
        wp_categories := some (profileDefaultCategories lastSelectedCategories) }
    else matterData
  else matterData

/-- `const hasExistingPost = matterData.wp_url && matterData.wp_url.length > 0`:
the update-vs-create branch condition of `publishPost`. -/
def hasExistingPost (matterData : MatterData) : Bool :=
  match matterData.wp_url with
  | some u => u != "" && u.length != 0
  | none => false

/-- The result of the browser's `new URL(...)` constructor, restricted to
the two accessors the source reads (`searchParams.get('p')` and
`pathname`).  The constructor is a platform API supplied by the
environment; `none` there models it throwing on an invalid URL. -/
structure JsUrl where
  pParam : Option String
  pathname : String
deriving DecidableEq, Repr

/-- A post object returned by the REST slug lookup; only `id` is read. -/
structure SlugPost where
  id : String
deriving DecidableEq, Repr

/-- The `slug.replace(/\.(html|php|htm)$/i, '')` step. -/
def stripSlugExtension (slug : String) : String :=
  let lower := jsToLowerCase slug
  if strEndsWith lower ".html" then slug.dropRight 5
  else if strEndsWith lower ".php" then slug.dropRight 4
  else if strEndsWith lower ".htm" then slug.dropRight 4
  else slug

/-- `getPostIdBySlug(slug)`: first match's `id` through `parseInt`, `null`
when the lookup returns nothing or throws (`postsBySlug slug = none`).
The base-class `getPostsBySlug` in the source returns `[]`. -/
def getPostIdBySlug (postsBySlug : String → Option (List SlugPost))
    (slug : String) : Option JsNum :=
  match postsBySlug slug with
  | none => none
  | some response =>
    match response with
    | [] => none
    | p :: _ => some (jsParseInt p.id)

/-- `extractPostIdFromUrl(url)`: a truthy `?p=` parameter wins and is
parsed directly; otherwise the last non-empty path segment, stripped of an
`.html`/`.php`/`.htm` extension, is looked up by slug; `null` on a
non-parsing URL, an empty path or an empty slug. -/
def extractPostIdFromUrl (parsedUrl : Option JsUrl)
    (postsBySlug : String → Option (List SlugPost)) : Option JsNum :=
  match parsedUrl with
  | none => none
  | some urlObj =>
    let pidOpt : Option String :=
      match urlObj.pParam with
      | some s => if s != "" then some s else none
      | none => none
    match pidOpt with
    | some postIdParam => some (jsParseInt postIdParam)
    | none =>
      let segments := ((charSplit urlObj.pathname.toList '/').map String.mk).filter
        (fun seg => seg.length != 0)
      match segments.getLast? with
      | none => none
      | some lastSeg =>
        let slug := stripSlugExtension lastSeg
        if slug.length == 0 then none
        else getPostIdBySlug postsBySlug slug

/-- Modelled from the spec: `PostTypeConst.Post` of `wp-api.ts` (not under
`src/`), the well-known default "post" content type. -/
def PostTypeConst.Post : String := "post"

/-- Modelled from the spec: `WP_DEFAULT_PROFILE_NAME` of `consts.ts` (not
under `src/`), the fallback profile name stamped into publish parameters
when the metadata names none. -/
def WP_DEFAULT_PROFILE_NAME : String := "Default"

/-- External collaborators and ambient profile state consumed by one
publish attempt.  Each remote call is modelled by its outcome for this
attempt (`none` models the call throwing), mirroring the spec's
collaborator interfaces (`TransportClient`, prompts, platform URL parser). -/
structure PublishEnv where
  profileName : String
  endpoint : String
  lastSelectedCategories : Option (List CatV) := none
  getCategoriesResult : Option (List Term) := none
  authOk : Bool := true
  parseUrl : String → Option JsUrl := fun _ => none
  postsBySlug : String → Option (List SlugPost) := fun _ => some []

/-- The `else if (this.profile.lastSelectedCategories ...)` arm used by
`publishPost` when the metadata carries no usable category array: the
remembered selection (names converted to IDs, IDs taken as they are) or
the default `[1]`. -/
def categoriesFromProfile (env : PublishEnv) : List CatV :=
  match env.lastSelectedCategories with
  | some lastSel =>
    if lastSel.length > 0 then
      if firstIsString lastSel then
        (convertCategoryNamesToIds env.getCategoriesResult lastSel).ids.map CatV.num
      else lastSel
    else [CatV.num (some 1)]
  | none => [CatV.num (some 1)]

/-- The category-resolution block of `publishPost` (the `categoriesForAPI`
local, and the identical `selectedCategories` computation of the modal
branch): representation is decided by the first element's type; an empty
or absent array falls back to the profile's remembered selection or `[1]`. -/
def categoriesForAPI (env : PublishEnv) (matterData : MatterData) : List CatV :=
  match matterData.wp_categories with
  | some wpCats =>
    if wpCats.length > 0 then
      if firstIsString wpCats then
        (convertCategoryNamesToIds env.getCategoriesResult wpCats).ids.map CatV.num
      else wpCats
    else categoriesFromProfile env
  | none => categoriesFromProfile env

/-- The title section of `readFromFrontMatter`: the note's own title,
overridden by a truthy `wp_title`. -/
def rffTitleStep (noteTitle : String) (matterData : MatterData)
    (p : WordPressPostParams) : WordPressPostParams :=
  let p0 := { p with title := noteTitle }
  match matterData.wp_title with
  | some t => if t != "" then { p0 with title := t } else p0
  | none => p0

/-- The `wp_url` section of `readFromFrontMatter`: a truthy `wp_url` is
converted to a post ID via `extractPostIdFromUrl`, and a truthy result is
stored stringified in `postId`. -/
def rffPostIdStep (env : PublishEnv) (matterData : MatterData)
    (p : WordPressPostParams) : WordPressPostParams :=
  match matterData.wp_url with
  | some u =>
    if u != "" then
      match extractPostIdFromUrl (env.parseUrl u) env.postsBySlug with
      | some (some n) => if n != 0 then { p with postId := some (toString n) } else p
      | _ => p
    else p
  | none => p

/-- The profile-name and post-type section of `readFromFrontMatter`:
`wp_profile ?? WP_DEFAULT_PROFILE_NAME`, and `wp_ptype` when present else
the default `'post'` type. -/
def rffTypeStep (matterData : MatterData) (p : WordPressPostParams) :
    WordPressPostParams :=
  let p3 := { p with profileName := some (matterData.wp_profile.getD WP_DEFAULT_PROFILE_NAME) }
  match matterData.wp_ptype with
  | some pt => { p3 with postType := pt }
  | none => { p3 with postType := PostTypeConst.Post }

/-- The categories section of `readFromFrontMatter` (run only for the
`'post'` type, when `wp_categories !== undefined`): first element's type
decides name-mode (converted, behind a throwing `getAuth()`) versus
ID-mode; an empty array falls back to the profile's remembered selection
or `[1]`. -/
def rffCategoriesStep (env : PublishEnv) (matterData : MatterData)
    (p : WordPressPostParams) : Except String WordPressPostParams :=
  match matterData.wp_categories with
  | some wpCategories =>
    if wpCategories.length > 0 then
      if firstIsString wpCategories then
        if env.authOk then
          Except.ok { p with categories :=
            (convertCategoryNamesToIds env.getCategoriesResult wpCategories).ids.map CatV.num }
        else Except.error "getAuth failed"
      else Except.ok { p with categories := wpCategories }
    else
      match env.lastSelectedCategories with
      | some lastSel =>
        if lastSel.length > 0 then
          if firstIsString lastSel then
            if env.authOk then
              Except.ok { p with categories :=
                (convertCategoryNamesToIds env.getCategoriesResult lastSel).ids.map CatV.num }
            else Except.error "getAuth failed"
          else Except.ok { p with categories := lastSel }
        else Except.ok { p with categories := [CatV.num (some 1)] }
      | none => Except.ok { p with categories := [CatV.num (some 1)] }
  | none => Except.ok p

/-- The tags section of `readFromFrontMatter` (run only for the `'post'`
type): `wp_tags` when present. -/
def rffTagsStep (matterData : MatterData) (p : WordPressPostParams) :
    WordPressPostParams :=
  match matterData.wp_tags with
  | some tags => { p with tags := tags }
  | none => p

/-- `readFromFrontMatter(noteTitle, matterData, params)`: copies the
caller's params and runs the source's sequential sections — title,
`wp_url`-to-`postId`, profile name and post type, then (only for the
`'post'` type, which alone supports taxonomy) categories and tags.  The
only throwing step is the mid-flow `getAuth()` re-acquisition needed for
name conversion (`env.authOk = false`). -/
def readFromFrontMatter (env : PublishEnv) (noteTitle : String)
    (matterData : MatterData) (params : WordPressPostParams) :
    Except String WordPressPostParams :=
  let p4 := rffTypeStep matterData
    (rffPostIdStep env matterData (rffTitleStep noteTitle matterData params))
  if p4.postType == PostTypeConst.Post then
    match rffCategoriesStep env matterData p4 with
    | Except.error e => Except.error e
    | Except.ok pc => Except.ok (rffTagsStep matterData pc)
  else Except.ok p4

/-- `typeof first === 'number'` on the untyped categories array. -/
def firstIsNumber : List CatV → Bool
  | CatV.num _ :: _ => true
  | _ => false

/-- JS truthiness of a possibly-absent string. -/
def truthyOptStr : Option String → Bool
  | some s => s != ""
  | none => false

/-- The three pre-converted name lists computed by `tryToPublish` before
the frontmatter merge (`categoryNamesForNewPost`, `categoryNamesForExisting`,
`categoryNamesForUpdate`); `none` models `undefined`. -/
structure PreConvert where
  forNewPost : Option (List String) := none
  forExisting : Option (List String) := none
  forUpdate : Option (List String) := none
deriving DecidableEq, Repr

/-- The pre-conversion block of `tryToPublish` run just before the merge:
the outgoing `postParams.categories` are converted to names when present
(the result doubling as the update-case list), and the file's current
`wp_categories` are converted when they are in legacy numeric form.  Each
conversion is wrapped in `try`/`catch`; the only throwing step inside is
the `getAuth()` re-acquisition, so `env.authOk = false` leaves the
corresponding list `undefined`. -/
def computePreConvert (env : PublishEnv) (postParams : WordPressPostParams)
    (currentMatter : MatterData) : PreConvert :=
  let np : Option (List String) :=
    if postParams.categories.length > 0 then
      if env.authOk then
        some (convertCategoryIdsToNames env.getCategoriesResult postParams.categories)
      else none
    else none
  let ex : Option (List String) :=
    match currentMatter.wp_categories with
    | some cats =>
      if cats.length > 0 then
        if firstIsNumber cats then
          if env.authOk then
            some (convertCategoryIdsToNames env.getCategoriesResult cats)
          else none
        else none
      else none
    | none => none
  ⟨np, ex, np⟩

/-- The built-in field policy of the frontmatter merge: the
`processFrontMatter` closure of `tryToPublish`, without the trailing
caller-supplied `updateMatterData` hook (modelled by `applyMatterHook`).
`fm` is the block as read; fields with no matching branch keep their
previous value, mirroring the in-place mutation of the source. -/
def mergeFrontMatter (env : PublishEnv) (fileBasename : String)
    (res : PubResultData) (postParams : WordPressPostParams)
    (pre : PreConvert) (originalTagNames : Option (List String))
    (fm : MatterData) : MatterData :=
  let preserved := fm
  let newUrl : Option String :=
    if truthyOptStr preserved.wp_url then preserved.wp_url
    else if truthyOptStr res.postUrl then res.postUrl
    else if res.postId.truthy then some (env.endpoint ++ "/?p=" ++ res.postId.jsString)
    else preserved.wp_url
  let newPtype : Option String :=
    match preserved.wp_ptype with
    | some pt => some pt
    | none => if postParams.postType != "" then some postParams.postType else none
  let newCats : Option (List CatV) :=
    match pre.forNewPost with
    | some l => some (l.map CatV.str)
    | none =>
      match pre.forExisting with
      | some l => some (l.map CatV.str)
      | none =>
        match pre.forUpdate with
        | some l => some (l.map CatV.str)
        | none =>
          if postParams.categories.length > 0 then some postParams.categories
          else preserved.wp_categories
  let newTags : Option (List String) :=
    match originalTagNames with
    | some l => some l
    | none => some postParams.tags
  let newTitle : Option String :=
    match preserved.wp_title with
    | some t => some t
    | none =>
      if postParams.title != "" && postParams.title != fileBasename then some postParams.title
      else none
  { wp_url := newUrl,
    wp_profile := some env.profileName,
    wp_ptype := newPtype,
    wp_categories := newCats,
    wp_tags := newTags,
    wp_title := newTitle }

/-- The trailing `updateMatterData` hook: the optional caller-supplied
override step of the merge, run last (after the built-in policy). -/
def applyMatterHook (hook : Option (MatterData → MatterData))
    (fm : MatterData) : MatterData :=
  match hook with
  | some f => f fm
  | none => fm

/-- Outcome of the body of `publishPost` (everything between lock
acquisition and the `catch`). -/
inductive BodyOutcome
  | success
  | failure (e : String)
deriving DecidableEq, Repr

/-- The cross-attempt shared state: the static `publishInProgress` flag
plus the document metadata the attempt may mutate. -/
structure PubState where
  locked : Bool
  matter : MatterData
deriving DecidableEq, Repr

/-- The message of the error thrown when the lock is already held. -/
def publishInProgressMsg : String :=
  "A publish operation is already in progress. Please wait for it to complete."

/-- The lock discipline of `publishPost`:
`try` first throws if `publishInProgress` is set, otherwise sets it and
runs the body; the `catch` converts a thrown error into an error result;
the `finally` sets `publishInProgress = false` on every path — including
the path on which this attempt was rejected and never acquired the lock.
The body is abstracted as its effect on the document metadata plus its
outcome. -/
def publishPostLock (body : MatterData → MatterData × BodyOutcome)
    (st : PubState) : Except String Unit × PubState :=
  if st.locked then
    (Except.error publishInProgressMsg, { st with locked := false })
  else
    let bodyRun := body st.matter
    (match bodyRun.2 with
     | BodyOutcome.success => Except.ok ()
     | BodyOutcome.failure e => Except.error e,
     { locked := false, matter := bodyRun.1 })

/-- A parsed image reference occurrence.  The source's `startIndex`,
`endIndex`, `file` and `content` fields are never read by the logic under
verification and are omitted. -/
structure Image where
  original : String
  src : String
  altText : Option String := none
  width : Option String := none
  height : Option String := none
  srcIsUrl : Bool
deriving DecidableEq, Repr

/-- Modelled from the spec: `isValidUrl` of `utils.ts` (not under `src/`)
decides whether a reference's source is already an absolute URL (such
sources are left untouched by the media relay); modelled as carrying an
http or https scheme. -/
def isValidUrl (s : String) : Bool :=
  strStartsWith s "http://" || strStartsWith s "https://"

/-- Two closing square brackets, the `]]` literal of the embed pattern. -/
def closeBrackets : List Char → Option (List Char)
  | ']' :: ']' :: rest => some rest
  | _ => none

/-- The tail `(?:\|(\d+)(?:x(\d+))?)?]]` of the embed regex, tried at one
source-end candidate: the optional pipe group is attempted first (its
inner `x` group likewise), matching the regex engine's greedy handling of
`?`; a maximal digit run stands for `\d+` (giving back digits can never
help, as the following token is never a digit). -/
def tryEmbedClose (rest : List Char) : Option (Option String × Option String × List Char) :=
  let piped : Option (Option String × Option String × List Char) :=
    match rest with
    | '|' :: r1 =>
      let ds := r1.takeWhile (·.isDigit)
      let r2 := r1.dropWhile (·.isDigit)
      if ds.isEmpty then none
      else
        let withX : Option (Option String × Option String × List Char) :=
          match r2 with
          | 'x' :: r3 =>
            let hs := r3.takeWhile (·.isDigit)
            let r4 := r3.dropWhile (·.isDigit)
            if hs.isEmpty then none
            else
              match closeBrackets r4 with
              | some r5 => some (some (String.mk ds), some (String.mk hs), r5)
              | none => none
          | _ => none
        match withX with
        | some res => some res
        | none =>
          match closeBrackets r2 with
          | some r5 => some (some (String.mk ds), none, r5)
          | none => none
    | _ => none
  match piped with
  | some res => some res
  | none =>
    match closeBrackets rest with
    | some r5 => some (none, none, r5)
    | none => none

/-- The lazy `(.*?)` source of the embed pattern: the tail is attempted at
the shortest source first and the source grows one character at a time;
`.` does not cross line terminators. -/
def embedSrcLoop : List Char → List Char →
    Option (List Char × Option String × Option String × List Char)
  | acc, rest =>
    match tryEmbedClose rest with
    | some (w, h, r') => some (acc.reverse, w, h, r')
    | none =>
      match rest with
      | [] => none
      | c :: r => if c == '\n' || c == '\r' then none else embedSrcLoop (c :: acc) r

/-- The exec loop for `/(!\[\[(.*?)(?:\|(\d+)(?:x(\d+))?)?]])/g`: scanning
resumes after each match, and advances one character when no match starts
at the current position.  Fuel is the remaining scan length. -/
def scanEmbedsAux : Nat → List Char → List Image
  | 0, _ => []
  | _, [] => []
  | Nat.succ fuel, cs =>
    match cs with
    | '!' :: '[' :: '[' :: rest =>
      (match embedSrcLoop [] rest with
       | some (srcChars, w, h, rest') =>
         let src := String.mk srcChars
         let matchedLen := cs.length - rest'.length
         { original := String.mk (cs.take matchedLen), src := src,
           width := w, height := h,
           srcIsUrl := isValidUrl src } :: scanEmbedsAux fuel rest'
       | none => scanEmbedsAux fuel ('[' :: '[' :: rest))
    | _ :: rest => scanEmbedsAux fuel rest
    | [] => []

/-- The lazy `(.*?)` inside `\((.*?)\)`: characters up to the first `)`,
failing at a line terminator or the end of input. -/
def findParenSrc : List Char → Option (List Char × List Char)
  | [] => none
  | ')' :: r => some ([], r)
  | c :: r =>
    if c == '\n' || c == '\r' then none
    else
      match findParenSrc r with
      | some (s, r') => some (c :: s, r')
      | none => none

/-- The tail `(?:\|(\d+)(?:x(\d+))?)?]\((.*?)\)` of the inline pattern,
tried at one alt-text-end candidate; returns `(width, height, srcChars,
rest)`. -/
def tryInlineClose (rest : List Char) :
    Option (Option String × Option String × List Char × List Char) :=
  let closeParen : List Char → Option (List Char × List Char) := fun r =>
    match r with
    | ']' :: '(' :: r2 => findParenSrc r2
    | _ => none
  let piped : Option (Option String × Option String × List Char × List Char) :=
    match rest with
    | '|' :: r1 =>
      let ds := r1.takeWhile (·.isDigit)
      let r2 := r1.dropWhile (·.isDigit)
      if ds.isEmpty then none
      else
        let withX : Option (Option String × Option String × List Char × List Char) :=
          match r2 with
          | 'x' :: r3 =>
            let hs := r3.takeWhile (·.isDigit)
            let r4 := r3.dropWhile (·.isDigit)
            if hs.isEmpty then none
            else (closeParen r4).map (fun sr => (some (String.mk ds), some (String.mk hs), sr.1, sr.2))
          | _ => none
        match withX with
        | some res => some res
        | none => (closeParen r2).map (fun sr => (some (String.mk ds), none, sr.1, sr.2))
    | _ => none
  match piped with
  | some res => some res
  | none => (closeParen rest).map (fun sr => ((none : Option String), (none : Option String), sr.1, sr.2))

/-- The lazy alt text `(.*?)` of the inline pattern. -/
def inlineAltLoop : List Char → List Char →
    Option (List Char × Option String × Option String × List Char × List Char)
  | acc, rest =>
    match tryInlineClose rest with
    | some (w, h, srcChars, r') => some (acc.reverse, w, h, srcChars, r')
    | none =>
      match rest with
      | [] => none
      | c :: r => if c == '\n' || c == '\r' then none else inlineAltLoop (c :: acc) r

/-- The exec loop for `/(!\[(.*?)(?:\|(\d+)(?:x(\d+))?)?]\((.*?)\))/g`. -/
def scanInlineAux : Nat → List Char → List Image
  | 0, _ => []
  | _, [] => []
  | Nat.succ fuel, cs =>
    match cs with
    | '!' :: '[' :: rest =>
      (match inlineAltLoop [] rest with
       | some (altChars, w, h, srcChars, rest') =>
         let src := String.mk srcChars
         let matchedLen := cs.length - rest'.length
         { original := String.mk (cs.take matchedLen), src := src,
           altText := some (String.mk altChars),
           width := w, height := h,
           srcIsUrl := isValidUrl src } :: scanInlineAux fuel rest'
       | none => scanInlineAux fuel ('[' :: rest))
    | _ :: rest => scanInlineAux fuel rest
    | [] => []

/-- `getImages(content)`: all inline-style matches, then all embed-style
matches, in source push order. -/
def getImages (content : String) : List Image :=
  let cs := content.toList
  scanInlineAux (cs.length + 1) cs ++ scanEmbedsAux (cs.length + 1) cs

/-- The outcome of `uploadMedia` for one image: success carrying the
remote URL, a server-side error carrying the server's message, or any
other failure. -/
inductive UploadOutcome
  | ok (url : String)
  | serverError (message : String)
  | otherError
deriving DecidableEq, Repr

/-- A vault file resolved from an image reference.  Only its name is read
by the logic under verification; the binary read and MIME sniffing feed
the upload call, which the environment models as one outcome. -/
structure VaultFile where
  name : String
deriving DecidableEq, Repr

/-- Collaborators of the media relay: the platform `decodeURI`, the
vault's link-path resolution (`getFirstLinkpathDest` plus the `TFile`
check), and the transport's `uploadMedia`. -/
structure MediaEnv where
  decodeURI : String → String := id
  resolveFile : String → String → Option VaultFile := fun _ _ => none
  upload : VaultFile → UploadOutcome := fun _ => UploadOutcome.otherError

/-- A user-visible warning emitted for a single failed image upload. -/
inductive MediaWarning
  | server (message : String)
  | uploadFailed (fileName : String)
deriving DecidableEq, Repr

/-- One iteration of the `updatePostImages` loop: skip sources that are
already URLs; otherwise decode the source, resolve it in the vault (the
`fileName === undefined` guard of the source is unreachable since `split`
never yields an empty array), upload, and on success replace the original
matched substring with a remote embed reference carrying the annotation;
on failure leave the body unchanged and emit one scoped warning. -/
def processImage (env : MediaEnv) (content : String) (img : Image) :
    String × List MediaWarning :=
  if img.srcIsUrl then (content, [])
  else
    let src := env.decodeURI img.src
    let fileName := (((charSplit src.toList '/').map String.mk).getLastD "")
    match env.resolveFile src fileName with
    | none => (content, [])
    | some imgFile =>
      match env.upload imgFile with
      | UploadOutcome.ok url =>
        let newRef : String :=
          match img.width, img.height with
          | some w, some h =>
            if w != "" && h != "" then "![[" ++ url ++ "|" ++ w ++ "x" ++ h ++ "]]"
            else if w != "" then "![[" ++ url ++ "|" ++ w ++ "]]"
            else "![[" ++ url ++ "]]"
          | some w, none =>
            if w != "" then "![[" ++ url ++ "|" ++ w ++ "]]" else "![[" ++ url ++ "]]"
          | none, _ => "![[" ++ url ++ "]]"
        (replaceFirst content img.original newRef, [])
      | UploadOutcome.serverError m => (content, [MediaWarning.server m])
      | UploadOutcome.otherError => (content, [MediaWarning.uploadFailed imgFile.name])

/-- The body rewrite of `updatePostImages`: the reference list is computed
once from the incoming body, then each reference is processed against the
evolving body. -/
def updatePostImages (env : MediaEnv) (content : String) :
    String × List MediaWarning :=
  (getImages content).foldl
    (fun acc img =>
      let step := processImage env acc.1 img
      (step.1, acc.2 ++ step.2))
    (content, [])

/-! ## Theorems -/

/-- C1: for every metadata block whose `remote_url` is present (non-empty),
the merge after a successful remote call keeps it unconditionally; only
when no existing URL is present is the server's returned canonical URL
adopted, falling back to a URL constructed from the endpoint, `/?p=` and
the new numeric post ID. -/
theorem merge_keeps_existing_remote_url
    (env : PublishEnv) (basename : String) (res : PubResultData)
    (post : WordPressPostParams) (pre : PreConvert)
    (otn : Option (List String)) (fm : MatterData) :
    (∀ u, fm.wp_url = some u → u ≠ "" →
      (mergeFrontMatter env basename res post pre otn fm).wp_url = some u) ∧
    (truthyOptStr fm.wp_url = false →
      (truthyOptStr res.postUrl = true →
        (mergeFrontMatter env basename res post pre otn fm).wp_url = res.postUrl) ∧
      (truthyOptStr res.postUrl = false → ∀ n : Int, res.postId = PostIdV.num n → n ≠ 0 →
        (mergeFrontMatter env basename res post pre otn fm).wp_url =
          some (env.endpoint ++ "/?p=" ++ toString n))) := by
  refine ⟨?_, fun hfalse => ⟨fun htrue => ?_, fun hfalse2 n hn hne => ?_⟩⟩
  · intro u hu hne
    simp [mergeFrontMatter, truthyOptStr, hu, hne]
  · simp [mergeFrontMatter, hfalse, htrue]
  · simp [mergeFrontMatter, hfalse, hfalse2, hn, PostIdV.truthy, PostIdV.jsString, hne]

/-- Witness for C1 at a concrete block: an existing URL survives a merge
that returns a different canonical URL. -/
theorem merge_keeps_existing_remote_url_witness :
    (mergeFrontMatter
      { profileName := "P", endpoint := "https://e.com" } "note"
      { postId := PostIdV.boolTrue, postUrl := some "https://e.com/other/" }
      {} {} none { wp_url := some "https://e.com/first/" }).wp_url
      = some "https://e.com/first/" := by
  exact (merge_keeps_existing_remote_url
    { profileName := "P", endpoint := "https://e.com" } "note"
    { postId := PostIdV.boolTrue, postUrl := some "https://e.com/other/" }
    {} {} none { wp_url := some "https://e.com/first/" }).1
    "https://e.com/first/" rfl (by decide)

/-- C5: merging with an explicitly supplied empty "original tag names"
list yields `tags = []` in the merged block, for every existing block —
explicit clearing is never confused with "no input". -/
theorem merge_explicit_empty_tags_clear
    (env : PublishEnv) (basename : String) (res : PubResultData)
    (post : WordPressPostParams) (pre : PreConvert) (fm : MatterData) :
    (mergeFrontMatter env basename res post pre (some []) fm).wp_tags = some [] := by
  simp [mergeFrontMatter]

/-- C2 counterexample: an attempt started while the lock is held does fail
with the distinguishable message, but its `finally` clause clears the
shared `publishInProgress` flag, so the in-flight attempt's lock does not
survive the rejected attempt. -/
theorem publish_lock_cleared_by_rejected_attempt :
    (publishPostLock (fun m => (m, BodyOutcome.success)) ⟨true, {}⟩).1
      = Except.error publishInProgressMsg ∧
    (publishPostLock (fun m => (m, BodyOutcome.success)) ⟨true, {}⟩).2.locked ≠ true := by
  exact ⟨rfl, by decide⟩

/-- C2 amended: a second attempt started while the lock is held fails
immediately with the distinguishable "publish already in progress" error
and mutates no document metadata; the lock flag is cleared on every exit
path of `publishPost` — including, as the counterexample shows, the
rejected path, which releases the in-flight attempt's lock early. -/
theorem publish_lock_entry_guard
    (body : MatterData → MatterData × BodyOutcome) (st : PubState) :
    (st.locked = true →
      (publishPostLock body st).1 = Except.error publishInProgressMsg ∧
      (publishPostLock body st).2.matter = st.matter) ∧
    (publishPostLock body st).2.locked = false := by
  unfold publishPostLock
  by_cases h : st.locked
  · simp [h]
  · simp [h]

/-- Witness for C2 at a concrete state with the lock held. -/
theorem publish_lock_entry_guard_witness :
    (publishPostLock (fun m => (m, BodyOutcome.failure "x"))
      ⟨true, { wp_url := some "u" }⟩).1 = Except.error publishInProgressMsg ∧
    (publishPostLock (fun m => (m, BodyOutcome.failure "x"))
      ⟨true, { wp_url := some "u" }⟩).2.matter = { wp_url := some "u" } := by
  exact (publish_lock_entry_guard (fun m => (m, BodyOutcome.failure "x"))
    ⟨true, { wp_url := some "u" }⟩).1 rfl

lemma rffTitleStep_fields (t : String) (md : MatterData) (p : WordPressPostParams) :
    (rffTitleStep t md p).postId = p.postId ∧
    (rffTitleStep t md p).postType = p.postType ∧
    (rffTitleStep t md p).categories = p.categories ∧
    (rffTitleStep t md p).tags = p.tags := by
  unfold rffTitleStep
  repeat' split
  all_goals simp

lemma rffPostIdStep_fields (env : PublishEnv) (md : MatterData) (p : WordPressPostParams) :
    (rffPostIdStep env md p).postType = p.postType ∧
    (rffPostIdStep env md p).categories = p.categories ∧
    (rffPostIdStep env md p).tags = p.tags := by
  unfold rffPostIdStep
  repeat' split
  all_goals simp

lemma rffPostIdStep_postId (env : PublishEnv) (md : MatterData) (p : WordPressPostParams) :
    (rffPostIdStep env md p).postId =
      (match md.wp_url with
       | some u =>
         if u != "" then
           (match extractPostIdFromUrl (env.parseUrl u) env.postsBySlug with
            | some (some n) => if n != 0 then some (toString n) else p.postId
            | _ => p.postId)
         else p.postId
       | none => p.postId) := by
  unfold rffPostIdStep
  repeat' split
  all_goals simp

lemma rffTypeStep_fields (md : MatterData) (p : WordPressPostParams) :
    (rffTypeStep md p).postId = p.postId ∧
    (rffTypeStep md p).categories = p.categories ∧
    (rffTypeStep md p).tags = p.tags ∧
    (rffTypeStep md p).postType = md.wp_ptype.getD PostTypeConst.Post := by
  unfold rffTypeStep
  split <;> simp_all

lemma rffCategoriesStep_ok_fields (env : PublishEnv) (md : MatterData)
    (p pc : WordPressPostParams) (h : rffCategoriesStep env md p = Except.ok pc) :
    pc.postId = p.postId ∧ pc.postType = p.postType ∧ pc.tags = p.tags := by
  unfold rffCategoriesStep at h
  repeat' split at h
  all_goals simp_all
  all_goals (subst h; simp)

lemma rffTagsStep_fields (md : MatterData) (p : WordPressPostParams) :
    (rffTagsStep md p).postId = p.postId ∧
    (rffTagsStep md p).postType = p.postType ∧
    (rffTagsStep md p).categories = p.categories ∧
    (rffTagsStep md p).tags = md.wp_tags.getD p.tags := by
  unfold rffTagsStep
  split <;> simp_all

lemma readFromFrontMatter_fields (env : PublishEnv) (title : String)
    (md : MatterData) (params r : WordPressPostParams)
    (h : readFromFrontMatter env title md params = Except.ok r) :
    r.postId = (rffPostIdStep env md (rffTitleStep title md params)).postId ∧
    r.postType = md.wp_ptype.getD PostTypeConst.Post ∧
    (md.wp_ptype.getD PostTypeConst.Post ≠ PostTypeConst.Post →
      r.categories = params.categories ∧ r.tags = params.tags) ∧
    (md.wp_ptype.getD PostTypeConst.Post = PostTypeConst.Post →
      r.tags = md.wp_tags.getD params.tags) := by
  have ht := rffTitleStep_fields title md params
  have hp := rffPostIdStep_fields env md (rffTitleStep title md params)
  have hty := rffTypeStep_fields md (rffPostIdStep env md (rffTitleStep title md params))
  simp only [readFromFrontMatter] at h
  by_cases hcond : ((rffTypeStep md (rffPostIdStep env md (rffTitleStep title md params))).postType
      == PostTypeConst.Post) = true
  · rw [if_pos hcond] at h
    cases hcs : rffCategoriesStep env md
        (rffTypeStep md (rffPostIdStep env md (rffTitleStep title md params))) with
    | error e => rw [hcs] at h; exact absurd h (by simp)
    | ok pc =>
      rw [hcs] at h
      injection h with h
      subst h
      have hcf := rffCategoriesStep_ok_fields env md _ pc hcs
      have htg := rffTagsStep_fields md pc
      have hPost : md.wp_ptype.getD PostTypeConst.Post = PostTypeConst.Post := by
        rw [← hty.2.2.2]; exact beq_iff_eq.mp hcond
      refine ⟨?_, ?_, ?_, ?_⟩
      · rw [htg.1, hcf.1, hty.1]
      · rw [htg.2.1, hcf.2.1, hty.2.2.2]
      · intro hne; exact absurd hPost hne
      · intro _
        rw [htg.2.2.2, hcf.2.2, hty.2.2.1, hp.2.2, ht.2.2.2]
  · rw [if_neg hcond] at h
    injection h with h
    subst h
    refine ⟨?_, ?_, ?_, ?_⟩
    · exact hty.1
    · exact hty.2.2.2
    · intro _
      exact ⟨by rw [hty.2.1, hp.2.1, ht.2.2.1], by rw [hty.2.2.1, hp.2.2, ht.2.2.2]⟩
    · intro heq
      exact absurd (by rw [hty.2.2.2, heq] : (rffTypeStep md (rffPostIdStep env md
        (rffTitleStep title md params))).postType = PostTypeConst.Post)
        (fun hh => hcond (by rw [hh]; exact beq_self_eq_true _))

/-- C10: when building publish parameters from the metadata block, the
stored categories and tags reach the outgoing request only if the resolved
post type is the default `'post'` type; for any other post type both are
ignored and the caller-supplied values are kept. -/
theorem non_post_type_ignores_taxonomy (env : PublishEnv) (title : String)
    (md : MatterData) (params r : WordPressPostParams)
    (h : readFromFrontMatter env title md params = Except.ok r) :
    r.postType = md.wp_ptype.getD PostTypeConst.Post ∧
    (r.postType ≠ PostTypeConst.Post →
      r.categories = params.categories ∧ r.tags = params.tags) ∧
    (r.postType = PostTypeConst.Post → r.tags = md.wp_tags.getD params.tags) := by
  have hf := readFromFrontMatter_fields env title md params r h
  refine ⟨hf.2.1, ?_, ?_⟩
  · intro hne
    exact hf.2.2.1 (by rw [← hf.2.1]; exact hne)
  · intro heq
    exact hf.2.2.2 (by rw [← hf.2.1]; exact heq)

/-- Witness for C10: a `wp_ptype` of `"page"` keeps the caller's
categories and tags untouched. -/
theorem non_post_type_ignores_taxonomy_witness :
    ∃ r, readFromFrontMatter { profileName := "P", endpoint := "e" } "note"
        { wp_ptype := some "page", wp_categories := some [CatV.str "News"],
          wp_tags := some ["t1"] }
        { categories := [CatV.num (some 7)], tags := ["keep"] }
      = Except.ok r
      ∧ r.categories = [CatV.num (some 7)] ∧ r.tags = ["keep"] := by
  refine ⟨_, rfl, ?_⟩
  exact (non_post_type_ignores_taxonomy { profileName := "P", endpoint := "e" } "note"
    { wp_ptype := some "page", wp_categories := some [CatV.str "News"],
      wp_tags := some ["t1"] }
    { categories := [CatV.num (some 7)], tags := ["keep"] } _ rfl).2.1 (by decide)

/-- C9: on a confirmed profile switch, `checkExistingProfile` deletes
`wp_url` from the in-memory block and replaces `wp_categories` with the
profile's remembered selection (or `[1]` if none); the attempt is then
classified as a CREATE (`hasExistingPost` is false) and the built request
carries no existing-post identifier. -/
theorem profile_switch_forces_create (profileName : String)
    (lastSel : Option (List CatV)) (confirm : ConfirmCode) (md : MatterData)
    (p : String) (hp : md.wp_profile = some p) (hne : p ≠ "")
    (hmm : p ≠ profileName) (hc : confirm ≠ ConfirmCode.Cancel) :
    (checkExistingProfile profileName lastSel confirm md).wp_url = none ∧
    (checkExistingProfile profileName lastSel confirm md).wp_categories
      = some (profileDefaultCategories lastSel) ∧
    hasExistingPost (checkExistingProfile profileName lastSel confirm md) = false ∧
    (∀ env title params r, params.postId = none →
      readFromFrontMatter env title (checkExistingProfile profileName lastSel confirm md)
        params = Except.ok r → r.postId = none) := by
  have hmis : (p != "" && p != profileName) = true := by
    rw [Bool.and_eq_true, bne_iff_ne, bne_iff_ne]
    exact ⟨hne, hmm⟩
  have hcb : (confirm != ConfirmCode.Cancel) = true := by
    rw [bne_iff_ne]
    exact hc
  have hmd : checkExistingProfile profileName lastSel confirm md
      = { md with
            wp_url := none,
            wp_categories := some (profileDefaultCategories lastSel) } := by
    unfold checkExistingProfile
    rw [hp]
    simp only [hmis, hcb, if_true]
  refine ⟨by rw [hmd], by rw [hmd], by rw [hmd]; rfl, ?_⟩
  intro env title params r hpid h
  have hf := (readFromFrontMatter_fields env title _ params r h).1
  have hurl : (checkExistingProfile profileName lastSel confirm md).wp_url = none := by
    rw [hmd]
  rw [rffPostIdStep_postId] at hf
  simp only [hurl] at hf
  rw [hf,
    (rffTitleStep_fields title (checkExistingProfile profileName lastSel confirm md) params).1,
    hpid]

/-- Witness for C9: a stored profile `"Old"` under an active profile
`"New"`, confirmed, with no remembered selection. -/
theorem profile_switch_forces_create_witness :
    (checkExistingProfile "New" none ConfirmCode.Confirm
      { wp_url := some "https://e.com/?p=9", wp_profile := some "Old" }).wp_url = none ∧
    (checkExistingProfile "New" none ConfirmCode.Confirm
      { wp_url := some "https://e.com/?p=9", wp_profile := some "Old" }).wp_categories
      = some [CatV.num (some 1)] ∧
    hasExistingPost (checkExistingProfile "New" none ConfirmCode.Confirm
      { wp_url := some "https://e.com/?p=9", wp_profile := some "Old" }) = false := by
  have h := profile_switch_forces_create "New" none ConfirmCode.Confirm
    { wp_url := some "https://e.com/?p=9", wp_profile := some "Old" } "Old"
    rfl (by decide) (by decide) (by decide)
  exact ⟨h.1, h.2.1, h.2.2.1⟩

/-- C3 counterexample: a block with the non-empty remote URL
`https://example.com/my-post/` passes the `hasExistingPost` check, yet the
built request carries no post identifier — the URL has no `?p=` parameter
and the slug lookup returns no post (the source's base `getPostsBySlug`
returns `[]`) — so the remote call targets no existing post and creates a
new one: "UPDATE iff non-empty remote_url" fails in the only-if direction. -/
theorem update_classification_counterexample :
    hasExistingPost { wp_url := some "https://example.com/my-post/" } = true ∧
    readFromFrontMatter
        { profileName := "P", endpoint := "https://example.com",
          parseUrl := fun _ => some ⟨none, "/my-post/"⟩ }
        "note" { wp_url := some "https://example.com/my-post/" } {}
      = Except.ok { title := "note", profileName := some WP_DEFAULT_PROFILE_NAME } ∧
    ({ title := "note", profileName := some WP_DEFAULT_PROFILE_NAME }
        : WordPressPostParams).postId = none := by
  exact ⟨rfl, rfl, rfl⟩

/-- C3 amended: given parameters carrying no pre-set identifier, the built
request targets an existing post exactly when the metadata carries a
non-empty `remote_url` from which a non-zero post ID can be extracted (a
`?p=` parameter or a successful slug lookup); when extraction fails the
attempt proceeds as a CREATE despite the non-empty `remote_url`.  The
coarse update-vs-create branch (`hasExistingPost`) is decided by non-empty
`remote_url` alone. -/
theorem postId_iff_extractable_url (env : PublishEnv) (title : String)
    (md : MatterData) (params r : WordPressPostParams)
    (hpid : params.postId = none)
    (h : readFromFrontMatter env title md params = Except.ok r) :
    (∀ u n, md.wp_url = some u → u ≠ "" →
      extractPostIdFromUrl (env.parseUrl u) env.postsBySlug = some (some n) → n ≠ 0 →
      r.postId = some (toString n)) ∧
    (r.postId = none ∨ ∃ u n, md.wp_url = some u ∧ u ≠ "" ∧
      extractPostIdFromUrl (env.parseUrl u) env.postsBySlug = some (some n) ∧ n ≠ 0 ∧
      r.postId = some (toString n)) ∧
    (hasExistingPost md = true ↔ ∃ u, md.wp_url = some u ∧ u ≠ "") := by
  have hf := (readFromFrontMatter_fields env title md params r h).1
  rw [rffPostIdStep_postId, (rffTitleStep_fields title md params).1, hpid] at hf
  refine ⟨?_, ?_, ?_⟩
  · intro u n hu hne hex hn
    rw [hu] at hf
    simp only [hex] at hf
    rw [hf, if_pos (bne_iff_ne.mpr hne), if_pos (bne_iff_ne.mpr hn)]
  · rw [hf]
    cases hu : md.wp_url with
    | none => exact Or.inl rfl
    | some u =>
      by_cases hne : (u != "") = true
      · simp only [if_pos hne]
        cases hex : extractPostIdFromUrl (env.parseUrl u) env.postsBySlug with
        | none => simp
        | some jn =>
          cases jn with
          | none => simp
          | some n =>
            by_cases hn : (n != 0) = true
            · simp only [if_pos hn]
              exact Or.inr ⟨u, n, rfl, bne_iff_ne.mp hne, hex, bne_iff_ne.mp hn, rfl⟩
            · simp only [if_neg hn]
              simp
      · simp only [if_neg hne]
        simp
  · unfold hasExistingPost
    cases hu : md.wp_url with
    | none => simp
    | some u =>
      constructor
      · intro htr
        rw [Bool.and_eq_true] at htr
        exact ⟨u, rfl, bne_iff_ne.mp htr.1⟩
      · rintro ⟨u', hu', hne⟩
        injection hu' with hh
        subst hh
        rw [Bool.and_eq_true]
        refine ⟨bne_iff_ne.mpr hne, bne_iff_ne.mpr ?_⟩
        intro h0
        apply hne
        cases u with
        | mk data =>
          have hdata : data = [] := List.length_eq_zero.mp h0
          rw [hdata]

/-- Witness for C3 (amended) at a URL carrying a direct `?p=123`
parameter: the request targets post 123. -/
theorem postId_iff_extractable_url_witness :
    ∃ r, readFromFrontMatter
        { profileName := "P", endpoint := "https://e.com",
          parseUrl := fun _ => some ⟨some "123", "/"⟩ }
        "note" { wp_url := some "https://e.com/?p=123" } {}
      = Except.ok r ∧ r.postId = some "123" := by
  refine ⟨_, rfl, ?_⟩
  exact (postId_iff_extractable_url
    { profileName := "P", endpoint := "https://e.com",
      parseUrl := fun _ => some ⟨some "123", "/"⟩ }
    "note" { wp_url := some "https://e.com/?p=123" } {} _ rfl rfl).1
    "https://e.com/?p=123" 123 rfl (by decide) rfl (by decide)

/-- C4 counterexample: when the mid-merge `getAuth()` re-acquisition
throws (`authOk = false`), every pre-converted name list stays `undefined`
and the merge's explicit fallback stores the outgoing numeric IDs — a
successful publish that leaves ID-form categories at rest. -/
theorem merge_categories_id_fallback_counterexample :
    (mergeFrontMatter
        { profileName := "P", endpoint := "https://e.com", authOk := false,
          getCategoriesResult := some [⟨"2", "News"⟩] }
        "note" { postId := PostIdV.num 10, postUrl := some "https://e.com/?p=10" }
        { categories := [CatV.num (some 2), CatV.num (some 3)] }
        (computePreConvert
          { profileName := "P", endpoint := "https://e.com", authOk := false,
            getCategoriesResult := some [⟨"2", "News"⟩] }
          { categories := [CatV.num (some 2), CatV.num (some 3)] } {})
        none {}).wp_categories
      = some [CatV.num (some 2), CatV.num (some 3)] ∧
    firstIsString [CatV.num (some 2), CatV.num (some 3)] = false := by
  exact ⟨rfl, rfl⟩

/-- C4 amended: after a successful publish the merge stores name-form
categories whenever the attempt carried categories and the ID-to-name
conversion step ran (the only way for it not to run is the mid-merge
`getAuth()` re-acquisition throwing); when conversion could not run, the
raw outgoing numeric IDs are stored instead. -/
theorem merge_categories_name_form (env : PublishEnv) (basename : String)
    (res : PubResultData) (post : WordPressPostParams)
    (currentMatter fm : MatterData) (otn : Option (List String)) :
    (env.authOk = true → post.categories ≠ [] →
      ∃ names : List String,
        (mergeFrontMatter env basename res post
          (computePreConvert env post currentMatter) otn fm).wp_categories
          = some (names.map CatV.str)) ∧
    (env.authOk = false → post.categories ≠ [] →
      (mergeFrontMatter env basename res post
        (computePreConvert env post currentMatter) otn fm).wp_categories
        = some post.categories) := by
  constructor
  · intro hauth hne
    have hlen : post.categories.length > 0 := List.length_pos.mpr hne
    refine ⟨convertCategoryIdsToNames env.getCategoriesResult post.categories, ?_⟩
    simp only [mergeFrontMatter, computePreConvert, hauth, if_pos hlen, if_true]
  · intro hauth hne
    have hlen : post.categories.length > 0 := List.length_pos.mpr hne
    simp only [mergeFrontMatter, computePreConvert, hauth, if_pos hlen, if_false,
      Bool.false_eq_true, ite_self]
    split
    · rename_i heq
      split at heq <;> simp_all
    · rfl

/-- Witness for C4 (amended) at a concrete attempt with conversion
available: the stored value is a name list. -/
theorem merge_categories_name_form_witness :
    ∃ names : List String,
      (mergeFrontMatter
        { profileName := "P", endpoint := "https://e.com",
          getCategoriesResult := some [⟨"2", "News"⟩] }
        "note" { postId := PostIdV.num 10 }
        { categories := [CatV.num (some 2)] }
        (computePreConvert
          { profileName := "P", endpoint := "https://e.com",
            getCategoriesResult := some [⟨"2", "News"⟩] }
          { categories := [CatV.num (some 2)] } {})
        none {}).wp_categories = some (names.map CatV.str) := by
  exact (merge_categories_name_form
    { profileName := "P", endpoint := "https://e.com",
      getCategoriesResult := some [⟨"2", "News"⟩] }
    "note" { postId := PostIdV.num 10 } { categories := [CatV.num (some 2)] }
    {} {} none).1 rfl (by decide)

lemma jsSetDedupAux_subset {α : Type} [DecidableEq α] :
    ∀ (l seen : List α) (x : α), x ∈ jsSetDedupAux seen l → x ∈ l
  | [], _, x, hx => by simp [jsSetDedupAux] at hx
  | a :: as, seen, x, hx => by
    rw [jsSetDedupAux] at hx
    by_cases hmem : a ∈ seen
    · rw [if_pos hmem] at hx
      exact List.mem_cons_of_mem a (jsSetDedupAux_subset as seen x hx)
    · rw [if_neg hmem] at hx
      rcases List.mem_cons.mp hx with h | h
      · exact h ▸ List.mem_cons_self a as
      · exact List.mem_cons_of_mem a (jsSetDedupAux_subset as (a :: seen) x h)

lemma jsSetDedup_subset {α : Type} [DecidableEq α] (l : List α) (x : α)
    (hx : x ∈ jsSetDedup l) : x ∈ l :=
  jsSetDedupAux_subset l [] x hx

lemma jsSetDedupAux_nodup {α : Type} [DecidableEq α] :
    ∀ (l seen : List α), (jsSetDedupAux seen l).Nodup ∧
      ∀ x ∈ jsSetDedupAux seen l, x ∉ seen
  | [], seen => by simp [jsSetDedupAux]
  | a :: as, seen => by
    rw [jsSetDedupAux]
    by_cases hmem : a ∈ seen
    · rw [if_pos hmem]
      exact jsSetDedupAux_nodup as seen
    · rw [if_neg hmem]
      obtain ⟨hnd, hout⟩ := jsSetDedupAux_nodup as (a :: seen)
      refine ⟨List.nodup_cons.mpr ⟨?_, hnd⟩, ?_⟩
      · intro ha
        exact hout a ha (List.mem_cons_self a seen)
      · intro x hx
        rcases List.mem_cons.mp hx with h | h
        · exact h ▸ hmem
        · intro hxs
          exact hout x h (List.mem_cons_of_mem a hxs)

lemma jsSetDedup_nodup {α : Type} [DecidableEq α] (l : List α) :
    (jsSetDedup l).Nodup :=
  (jsSetDedupAux_nodup l []).1

/-- Characterization of the conversion loop on an all-string category
array: it never throws, produces one pushed ID per name, collects exactly
the names with no case-insensitive match, and every pushed ID is the
default `1` or the parsed ID of a case-insensitively matched category. -/
lemma convertLoop_map_str (cats : List Term) (names : List String) :
    ∃ ids missing, convertLoop cats (names.map CatV.str) = some (ids, missing) ∧
      ids.length = names.length ∧
      missing = names.filter
        (fun s => (cats.find? (fun c => jsToLowerCase c.name == jsToLowerCase s)).isNone) ∧
      (∀ x ∈ ids, x = some 1 ∨ ∃ c ∈ cats, x = jsParseInt c.id ∧
        ∃ s ∈ names, jsToLowerCase c.name = jsToLowerCase s) := by
  induction names with
  | nil => exact ⟨[], [], rfl, rfl, rfl, by simp⟩
  | cons s rest ih =>
    obtain ⟨ids, missing, hcl, hlen, hmiss, hmem⟩ := ih
    cases hfind : cats.find? (fun c => jsToLowerCase c.name == jsToLowerCase s) with
    | some cat =>
      refine ⟨jsParseInt cat.id :: ids, missing, ?_, by simp [hlen], ?_, ?_⟩
      · simp only [List.map_cons, convertLoop, hcl, hfind]
      · rw [hmiss]
        simp [List.filter_cons, hfind]
      · intro x hx
        rcases List.mem_cons.mp hx with hx | hx
        · refine Or.inr ⟨cat, List.mem_of_find?_eq_some hfind, hx, s, List.mem_cons_self s rest, ?_⟩
          have hp := List.find?_some hfind
          exact eq_of_beq hp
        · rcases hmem x hx with h1 | ⟨c, hc, hxc, s', hs', hlow⟩
          · exact Or.inl h1
          · exact Or.inr ⟨c, hc, hxc, s', List.mem_cons_of_mem s hs', hlow⟩
    | none =>
      refine ⟨some 1 :: ids, s :: missing, ?_, by simp [hlen], ?_, ?_⟩
      · simp only [List.map_cons, convertLoop, hcl, hfind]
      · rw [hmiss]
        simp [List.filter_cons, hfind]
      · intro x hx
        rcases List.mem_cons.mp hx with hx | hx
        · exact Or.inl hx
        · rcases hmem x hx with h1 | ⟨c, hc, hxc, s', hs', hlow⟩
          · exact Or.inl h1
          · exact Or.inr ⟨c, hc, hxc, s', List.mem_cons_of_mem s hs', hlow⟩

/-- C7: resolving an all-string category-name list against the remote
category list matches case-insensitively; the result is non-empty and
de-duplicated; an empty name list resolves to `[1]`; every resolved ID is
either the default `1` (covering every unmatched name) or the parsed ID of
some case-insensitively matched category (names are never numerically
parsed); the batched notice exists exactly when some name is unmatched and
names all the unmatched names; and on a failed category fetch the function
degrades to `[1]` instead of failing. -/
theorem convertCategoryNamesToIds_spec (cats : List Term) (names : List String) :
    (convertCategoryNamesToIds (some cats) (names.map CatV.str)).ids ≠ [] ∧
    (convertCategoryNamesToIds (some cats) (names.map CatV.str)).ids.Nodup ∧
    (names = [] → (convertCategoryNamesToIds (some cats) (names.map CatV.str)).ids = [some 1]) ∧
    (∀ x ∈ (convertCategoryNamesToIds (some cats) (names.map CatV.str)).ids,
      x = some 1 ∨ ∃ c ∈ cats, x = jsParseInt c.id ∧
        ∃ s ∈ names, jsToLowerCase c.name = jsToLowerCase s) ∧
    ((convertCategoryNamesToIds (some cats) (names.map CatV.str)).notice =
      if names.filter
          (fun s => (cats.find? (fun c => jsToLowerCase c.name == jsToLowerCase s)).isNone)
          = [] then none
      else some ("Categories not found: "
        ++ String.intercalate ", " (names.filter
            (fun s => (cats.find? (fun c => jsToLowerCase c.name == jsToLowerCase s)).isNone))
        ++ ". Using \"Uncategorized\" instead.")) ∧
    (∀ catNames, convertCategoryNamesToIds none catNames = ⟨[some 1], none⟩) := by
  obtain ⟨ids, missing, hcl, hlen, hmiss, hmem⟩ := convertLoop_map_str cats names
  have hids : (convertCategoryNamesToIds (some cats) (names.map CatV.str)).ids
      = if (jsSetDedup ids).length > 0 then jsSetDedup ids else [some 1] := by
    simp only [convertCategoryNamesToIds, hcl]
  have hnot : (convertCategoryNamesToIds (some cats) (names.map CatV.str)).notice
      = if missing.length > 0 then
          some ("Categories not found: " ++ String.intercalate ", " missing
            ++ ". Using \"Uncategorized\" instead.")
        else none := by
    simp only [convertCategoryNamesToIds, hcl]
  refine ⟨?_, ?_, ?_, ?_, ?_, fun _ => rfl⟩
  · rw [hids]
    split
    · rename_i hgt
      intro hnil
      rw [hnil] at hgt
      simp at hgt
    · simp
  · rw [hids]
    split
    · exact jsSetDedup_nodup ids
    · simp
  · intro hnil
    subst hnil
    rw [hids]
    simp only [List.map_nil, convertLoop] at hcl
    injection hcl with hpair
    injection hpair with h1 h2
    subst h1
    simp [jsSetDedup, jsSetDedupAux]
  · rw [hids]
    intro x hx
    split at hx
    · exact hmem x (jsSetDedup_subset _ _ hx)
    · exact Or.inl (List.mem_singleton.mp hx)
  · rw [hnot]
    subst hmiss
    by_cases hfil : names.filter
        (fun s => (cats.find? (fun c => jsToLowerCase c.name == jsToLowerCase s)).isNone) = []
    · simp [hfil]
    · rw [if_neg hfil, if_pos (List.length_pos.mpr hfil)]

/-- Witness for C7: `"news"` and `"NEWS"` both match category `News`
(ID 4) case-insensitively and are de-duplicated, `"Ghost"` falls back to
`1`; the single batched notice names `Ghost`. -/
theorem convertCategoryNamesToIds_spec_witness :
    (convertCategoryNamesToIds (some [⟨"4", "News"⟩])
      [CatV.str "news", CatV.str "Ghost", CatV.str "NEWS"]).ids.Nodup ∧
    (convertCategoryNamesToIds (some [⟨"4", "News"⟩])
      [CatV.str "news", CatV.str "Ghost", CatV.str "NEWS"]).ids = [some 4, some 1] ∧
    (convertCategoryNamesToIds (some [⟨"4", "News"⟩])
      [CatV.str "news", CatV.str "Ghost", CatV.str "NEWS"]).notice
      = some "Categories not found: Ghost. Using \"Uncategorized\" instead." := by
  refine ⟨?_, by decide, by decide⟩
  exact (convertCategoryNamesToIds_spec [⟨"4", "News"⟩] ["news", "Ghost", "NEWS"]).2.1

/-- C6: the representation of a non-empty untyped category array is
decided by the type of its first element — a string first element makes
the whole array name-mode (resolved by `convertCategoryNamesToIds`, whose
output IDs derive only from matched categories or the default `1`, never
from numerically parsing a name), any other first element makes it
ID-mode (used as-is); an empty or absent array is "no selection", falling
back to the profile's remembered selection or the default `[1]`. -/
theorem category_representation_detection (env : PublishEnv) (md : MatterData) :
    (∀ l, md.wp_categories = some l → firstIsString l = true →
      categoriesForAPI env md
        = (convertCategoryNamesToIds env.getCategoriesResult l).ids.map CatV.num) ∧
    (∀ l, md.wp_categories = some l → l ≠ [] → firstIsString l = false →
      categoriesForAPI env md = l) ∧
    (md.wp_categories = none ∨ md.wp_categories = some [] →
      categoriesForAPI env md = categoriesFromProfile env) ∧
    (env.lastSelectedCategories = none →
      categoriesFromProfile env = [CatV.num (some 1)]) ∧
    (∀ names, md.wp_categories = some (names.map CatV.str) → names ≠ [] →
      ∀ x ∈ categoriesForAPI env md, x = CatV.num (some 1) ∨
        ∃ c ∈ env.getCategoriesResult.getD [], ∃ s ∈ names,
          jsToLowerCase c.name = jsToLowerCase s ∧ x = CatV.num (jsParseInt c.id)) := by
  refine ⟨?_, ?_, ?_, ?_, ?_⟩
  · intro l hl hfirst
    have hlen : l.length > 0 := by
      cases l with
      | nil => simp [firstIsString] at hfirst
      | cons a b => simp
    simp only [categoriesForAPI, hl, if_pos hlen, hfirst, if_true]
  · intro l hl hne hfirst
    have hlen : l.length > 0 := List.length_pos.mpr hne
    simp only [categoriesForAPI, hl, if_pos hlen, hfirst, Bool.false_eq_true, if_false]
  · intro h
    rcases h with h | h
    · simp only [categoriesForAPI, h]
    · simp only [categoriesForAPI, h, List.length_nil, gt_iff_lt, lt_self_iff_false, if_false]
  · intro h
    simp only [categoriesFromProfile, h]
  · intro names hl hne x hx
    have hfirst : firstIsString (names.map CatV.str) = true := by
      cases names with
      | nil => exact absurd rfl hne
      | cons a b => rfl
    have hlen : (names.map CatV.str).length > 0 := by
      cases names with
      | nil => exact absurd rfl hne
      | cons a b => simp
    have heq : categoriesForAPI env md
        = (convertCategoryNamesToIds env.getCategoriesResult (names.map CatV.str)).ids.map
            CatV.num := by
      simp only [categoriesForAPI, hl, if_pos hlen, hfirst, if_true]
    rw [heq] at hx
    obtain ⟨y, hy, hxy⟩ := List.mem_map.mp hx
    subst hxy
    cases hcats : env.getCategoriesResult with
    | none =>
      rw [hcats] at hy
      simp only [convertCategoryNamesToIds, List.mem_singleton] at hy
      exact Or.inl (by rw [hy])
    | some cats =>
      rw [hcats] at hy
      obtain ⟨ids, missing, hcl, hlen2, hmiss, hmem⟩ := convertLoop_map_str cats names
      have hids : (convertCategoryNamesToIds (some cats) (names.map CatV.str)).ids
          = if (jsSetDedup ids).length > 0 then jsSetDedup ids else [some 1] := by
        simp only [convertCategoryNamesToIds, hcl]
      rw [hids] at hy
      split at hy
      · rcases hmem y (jsSetDedup_subset _ _ hy) with h1 | ⟨c, hc, hyc, s, hs, hlow⟩
        · exact Or.inl (by rw [h1])
        · exact Or.inr ⟨c, by simpa [hcats] using hc, s, hs, hlow, by rw [hyc]⟩
      · exact Or.inl (by rw [List.mem_singleton.mp hy])

/-- Witness for C6: `["News", "Ghost"]` with first element a string is
resolved as names — `News` matches ID 4, `Ghost` defaults to 1. -/
theorem category_representation_detection_witness :
    categoriesForAPI
      { profileName := "P", endpoint := "e",
        getCategoriesResult := some [⟨"4", "News"⟩] }
      { wp_categories := some [CatV.str "News", CatV.str "Ghost"] }
      = [CatV.num (some 4), CatV.num (some 1)] := by
  have h := (category_representation_detection
    { profileName := "P", endpoint := "e",
      getCategoriesResult := some [⟨"4", "News"⟩] }
    { wp_categories := some [CatV.str "News", CatV.str "Ghost"] }).1
    [CatV.str "News", CatV.str "Ghost"] rfl rfl
  rw [h]
  decide

/-- C8: for an image reference found in a body whose source is local,
resolves in the vault and uploads successfully to URL `U`, the relay
replaces the original matched substring (not just the path) with a remote
embed reference carrying the width/height annotation forward exactly as
found, in all three shapes: both dimensions, width-only, and none. -/
theorem media_relay_preserves_annotations (env : MediaEnv) (content : String)
    (img : Image) (_himg : img ∈ getImages content) (hlocal : img.srcIsUrl = false)
    (f : VaultFile)
    (hres : env.resolveFile (env.decodeURI img.src)
      (((charSplit (env.decodeURI img.src).toList '/').map String.mk).getLastD "") = some f)
    (url : String) (hup : env.upload f = UploadOutcome.ok url) :
    (∀ w h, img.width = some w → img.height = some h → w ≠ "" → h ≠ "" →
      processImage env content img
        = (replaceFirst content img.original
            ("![[" ++ url ++ "|" ++ w ++ "x" ++ h ++ "]]"), [])) ∧
    (∀ w, img.width = some w → img.height = none → w ≠ "" →
      processImage env content img
        = (replaceFirst content img.original ("![[" ++ url ++ "|" ++ w ++ "]]"), [])) ∧
    (img.width = none →
      processImage env content img
        = (replaceFirst content img.original ("![[" ++ url ++ "]]"), [])) := by
  have hcommon : processImage env content img
      = (replaceFirst content img.original
          (match img.width, img.height with
           | some w, some h =>
             if w != "" && h != "" then "![[" ++ url ++ "|" ++ w ++ "x" ++ h ++ "]]"
             else if w != "" then "![[" ++ url ++ "|" ++ w ++ "]]"
             else "![[" ++ url ++ "]]"
           | some w, none =>
             if w != "" then "![[" ++ url ++ "|" ++ w ++ "]]" else "![[" ++ url ++ "]]"
           | none, _ => "![[" ++ url ++ "]]"), []) := by
    simp only [processImage, hlocal, Bool.false_eq_true, if_false, hres, hup]
  refine ⟨?_, ?_, ?_⟩
  · intro w h hw hh hwne hhne
    rw [hcommon, hw, hh]
    simp only [bne_iff_ne, ne_eq, hwne, not_false_eq_true, hhne, Bool.and_self, if_true]
    rw [if_pos (by rw [Bool.and_eq_true]; exact ⟨bne_iff_ne.mpr hwne, bne_iff_ne.mpr hhne⟩)]
  · intro w hw hh hwne
    rw [hcommon, hw, hh]
    simp only [bne_iff_ne, ne_eq, hwne, not_false_eq_true, if_true]
  · intro hw
    rw [hcommon, hw]

/-- Witness for C8: the body `x ![[cat.png|300x200]] y` with a successful
upload returning `U` becomes `x ![[U|300x200]] y`, dimensions preserved. -/
theorem media_relay_preserves_annotations_witness :
    processImage
      { decodeURI := id,
        resolveFile := fun _ _ => some ⟨"cat.png"⟩,
        upload := fun _ => UploadOutcome.ok "https://e.com/up/cat.png" }
      "x ![[cat.png|300x200]] y"
      { original := "![[cat.png|300x200]]", src := "cat.png",
        width := some "300", height := some "200", srcIsUrl := false }
      = ("x ![[https://e.com/up/cat.png|300x200]] y", []) ∧
    ({ original := "![[cat.png|300x200]]", src := "cat.png",
       width := some "300", height := some "200", srcIsUrl := false } : Image)
      ∈ getImages "x ![[cat.png|300x200]] y" := by
  constructor
  · have h := (media_relay_preserves_annotations
      { decodeURI := id,
        resolveFile := fun _ _ => some ⟨"cat.png"⟩,
        upload := fun _ => UploadOutcome.ok "https://e.com/up/cat.png" }
      "x ![[cat.png|300x200]] y"
      { original := "![[cat.png|300x200]]", src := "cat.png",
        width := some "300", height := some "200", srcIsUrl := false }
      (by decide) rfl ⟨"cat.png"⟩ rfl "https://e.com/up/cat.png" rfl).1
      "300" "200" rfl rfl (by decide) (by decide)
    rw [h]
    decide
  · decide

end ObsidianWp
